import Mathlib

/-!
Verification model of the WAF admin portal's request-analysis core.

The definitions below are a shallow embedding of the TypeScript source:
* `src/server/waf/engine.ts`  — the `WafEngine` class (rule matching,
  severity scoring, threshold decision);
* `src/server/routes.ts`      — the `POST /api/waf/ingress` pipeline;
* `src/server/middleware.ts`  — the in-memory `rateLimit` middleware;
* `src/server/storage.ts`     — `anonymizeOldIPs` (IP truncation) and the
  blocked-request count of `getDashboardStats`.

JavaScript's regular-expression engine is external to the repository; it is
modelled as an oracle `RegexCompiler : String → Option (String → Bool)`:
`new RegExp(pattern)` either throws (here: `none`) or yields a test
function.  Machine numbers are modelled as `Int` (all arithmetic in the
modelled code stays far from both float rounding and overflow).
-/

namespace WafPortal

/-- JSON values, as produced by `JSON.parse` / consumed by `JSON.stringify`.
Object fields keep insertion order, as JavaScript objects do. -/
inductive Json where
  | null : Json
  | bool : Bool → Json
  | num : Int → Json
  | str : String → Json
  | arr : List Json → Json
  | obj : List (String × Json) → Json
deriving Repr

/-- JSON string escaping: quote, backslash and the common control
characters, as `JSON.stringify` does for them. -/
def escapeChar (c : Char) : String :=
  if c = '"' then "\\\""
  else if c = '\\' then "\\\\"
  else if c = '\n' then "\\n"
  else if c = '\t' then "\\t"
  else if c = '\r' then "\\r"
  else String.singleton c

def escapeString (s : String) : String :=
  String.join (s.data.map escapeChar)

mutual

/-- `JSON.stringify` of a JSON value. -/
def Json.stringify : Json → String
  | .null => "null"
  | .bool true => "true"
  | .bool false => "false"
  | .num n => toString n
  | .str s => "\"" ++ escapeString s ++ "\""
  | .arr xs => "[" ++ stringifyArr xs ++ "]"
  | .obj fs => "\x7b" ++ stringifyObj fs ++ "\x7d"

def stringifyArr : List Json → String
  | [] => ""
  | [x] => Json.stringify x
  | x :: xs => Json.stringify x ++ "," ++ stringifyArr xs

def stringifyObj : List (String × Json) → String
  | [] => ""
  | [(k, v)] => "\"" ++ escapeString k ++ "\":" ++ Json.stringify v
  | (k, v) :: fs =>
      "\"" ++ escapeString k ++ "\":" ++ Json.stringify v ++ "," ++ stringifyObj fs

end

/-- A WAF rule as the engine sees it (`interface WafRule`, engine.ts:1-8). -/
structure WafRule where
  id : String
  pattern : String
  targetField : String
  severity : String
  category : String
  enabled : Bool
deriving Repr, DecidableEq

/-- The incoming request description (`interface RequestData`,
engine.ts:10-16).  `headers` is declared non-optional in the source but is
guarded by `|| {}` at use sites, so it is optional here; `body` and `query`
are optional in the source. -/
structure RequestData where
  method : String
  path : String
  headers : Option Json
  body : Option Json
  query : Option Json
deriving Repr

/-- The three per-tenant score thresholds (`interface Thresholds`,
engine.ts:30-34). -/
structure Thresholds where
  blockThreshold : Int
  challengeThreshold : Int
  monitorThreshold : Int
deriving Repr, DecidableEq

/-- The engine's enforcement action (`"allow" | "block" | "challenge"`). -/
inductive Action where
  | allow : Action
  | challenge : Action
  | block : Action
deriving Repr, DecidableEq

/-- One entry of the match list (`AnalysisResult.matches`, engine.ts:21-26). -/
structure RuleMatch where
  ruleId : String
  field : String
  value : String
  severity : String
deriving Repr, DecidableEq

/-- The result of one analysis (`interface AnalysisResult`, engine.ts:18-28).
The source's `matches` field is spelled `matchList` because `matches` is a
reserved word in Lean. -/
structure AnalysisResult where
  action : Action
  score : Int
  matchList : List RuleMatch
  reason : String
deriving Repr, DecidableEq

/-- One built-in baseline pattern (`defaultPatterns` entries,
engine.ts:47-52); `pattern` is the regex literal's `.source` string. -/
structure DefaultPattern where
  id : String
  pattern : String
  field : String
  severity : String
  score : Int
deriving Repr, DecidableEq

/-- The four built-in baseline patterns (engine.ts:47-52). -/
def defaultPatterns : List DefaultPattern :=
  [ ⟨"sql-injection",
      "(\\b(SELECT|INSERT|UPDATE|DELETE|DROP|UNION|ALTER)\\b.*\\b(FROM|INTO|WHERE|TABLE)\\b)",
      "query", "high", 80⟩,
    ⟨"xss-basic", "<script[^>]*>.*?</script>", "body", "high", 70⟩,
    ⟨"path-traversal", "\\.\\.(/|\\\\)", "path", "medium", 50⟩,
    ⟨"cmd-injection", ";|\\||&|`|\\$\\(", "query", "high", 75⟩ ]

/-- The mapping of a built-in pattern to a rule record (engine.ts:54-61);
note that the pattern's own `score` field is dropped. -/
def DefaultPattern.toRule (p : DefaultPattern) : WafRule :=
  ⟨p.id, p.pattern, p.field, p.severity, "owasp", true⟩

def defaultRules : List WafRule := defaultPatterns.map DefaultPattern.toRule

/-- `setCustomRules` (engine.ts:39-41): the stored custom rule list is the
input filtered to enabled rules. -/
def setCustomRules (rules : List WafRule) : List WafRule :=
  rules.filter (fun r => r.enabled)

/-- JavaScript truthiness for the `|| {}` guards on structured fields. -/
def jsonOrEmpty : Option Json → Json
  | none => .obj []
  | some .null => .obj []
  | some (.bool false) => .obj []
  | some (.num 0) => .obj []
  | some (.str "") => .obj []
  | some j => j

/-- `JSON.stringify(request)`: the whole request serialized as the object
literal the engine receives (fields in interface order; absent optional
fields are omitted, as `JSON.stringify` omits `undefined` members). -/
def RequestData.serialize (r : RequestData) : String :=
  Json.stringify (.obj
    ([("method", .str r.method), ("path", .str r.path)]
      ++ (match r.headers with | some h => [("headers", h)] | none => [])
      ++ (match r.body with | some b => [("body", b)] | none => [])
      ++ (match r.query with | some q => [("query", q)] | none => [])))

/-- The `searchableContent` map (engine.ts:63-69) together with the
`searchableContent[rule.targetField] || ''` lookup (engine.ts:74): an
unrecognized field name resolves to the empty string. -/
def lookupContent (r : RequestData) : String → String
  | "path" => r.path
  | "query" => Json.stringify (jsonOrEmpty r.query)
  | "body" => Json.stringify (jsonOrEmpty r.body)
  | "headers" => Json.stringify (jsonOrEmpty r.headers)
  | "request" => r.serialize
  | _ => ""

/-- The severity-to-points mapping (engine.ts:78-81): any severity other
than critical/high/medium scores as low. -/
def severityScore (sev : String) : Int :=
  if sev = "critical" then 100
  else if sev = "high" then 75
  else if sev = "medium" then 50
  else 25

/-- The oracle standing for JavaScript's regex engine: `new RegExp(p, 'i')`
either throws (`none`) or yields a test function. -/
def RegexCompiler : Type := String → Option (String → Bool)

/-- The rule loop of `analyzeRequest` (engine.ts:71-92): left to right over
the rule list, skipping disabled rules; a pattern-compilation failure is an
uncaught exception and aborts the whole loop (`Except.error`); a firing
rule contributes one match record and its severity score. -/
def evalRules (compile : RegexCompiler) (req : RequestData) :
    List WafRule → Except Unit (List RuleMatch × Int)
  | [] => .ok ([], 0)
  | r :: rs =>
    if r.enabled then
      match compile r.pattern with
      | none => .error ()
      | some test =>
        let content := lookupContent req r.targetField
        if test content then
          match evalRules compile req rs with
          | .error e => .error e
          | .ok (ms, s) =>
              .ok (⟨r.id, r.targetField, content.take 100, r.severity⟩ :: ms,
                severityScore r.severity + s)
        else evalRules compile req rs
    else evalRules compile req rs

/-- `WafEngine.analyzeRequest` (engine.ts:43-115): evaluate the built-in
patterns followed by the stored custom rules, clamp the summed score with
`Math.min(100, totalScore)`, then decide by the threshold chain.  The
`Except` layer records that an uncaught per-rule exception propagates to
the caller. -/
def analyzeRequest (compile : RegexCompiler) (customRules : List WafRule)
    (request : RequestData) (th : Thresholds) : Except Unit AnalysisResult :=
  match evalRules compile request (defaultRules ++ customRules) with
  | .error e => .error e
  | .ok (ms, total) =>
    let totalScore := min 100 total
    if totalScore ≥ th.blockThreshold then
      .ok ⟨.block, totalScore, ms,
        "Threat score " ++ toString totalScore ++ " exceeded block threshold "
          ++ toString th.blockThreshold⟩
    else if totalScore ≥ th.challengeThreshold then
      .ok ⟨.challenge, totalScore, ms,
        "Threat score " ++ toString totalScore ++ " exceeded challenge threshold "
          ++ toString th.challengeThreshold⟩
    else if totalScore ≥ th.monitorThreshold then
      .ok ⟨.allow, totalScore, ms,
        "Threat score " ++ toString totalScore ++ " requires monitoring"⟩
    else
      .ok ⟨.allow, totalScore, ms, "Request passed all checks"⟩

/-- Whether a rule fires for a request: it is enabled, its pattern
compiles, and the compiled test accepts the content of its target field. -/
def ruleFires (compile : RegexCompiler) (req : RequestData) (r : WafRule) : Bool :=
  r.enabled && (match compile r.pattern with
    | some test => test (lookupContent req r.targetField)
    | none => false)

/-- The match record a firing rule produces (engine.ts:83-88). -/
def matchOf (req : RequestData) (r : WafRule) : RuleMatch :=
  ⟨r.id, r.targetField, (lookupContent req r.targetField).take 100, r.severity⟩

/-- Every enabled rule's pattern compiles. -/
def rulesCompile (compile : RegexCompiler) (rs : List WafRule) : Bool :=
  rs.all (fun r => !r.enabled || (compile r.pattern).isSome)

/-! ### Rate limiting (`src/server/middleware.ts`, `rateLimit`) -/

/-- One entry of the in-memory rate-limit store (`{ count, resetTime }`,
middleware.ts:4). -/
structure RateRecord where
  count : Nat
  resetTime : Int
deriving Repr, DecidableEq

/-- One pass of the `rateLimit` middleware for a single `(ip, path)` key
(middleware.ts:6-33): the returned pair is the key's store entry after the
call and whether the call was allowed through (`next()`) rather than
answered with 429.  The opportunistic sweep (middleware.ts:22-29) only
deletes entries whose window has expired, which this per-key view treats
the same as an expired entry. -/
def rateLimitStep (windowMs : Int) (maxRequests : Nat) (now : Int)
    (rec : Option RateRecord) : Option RateRecord × Bool :=
  match rec with
  | some r =>
    if r.resetTime > now then
      if r.count ≥ maxRequests then (some r, false)
      else (some ⟨r.count + 1, r.resetTime⟩, true)
    else (some ⟨1, now + windowMs⟩, true)
  | none => (some ⟨1, now + windowMs⟩, true)

/-- A sequence of calls on one key, from a starting store entry: returns
the final entry and the per-call allow/deny outcomes in order. -/
def rateLimitRun (windowMs : Int) (maxRequests : Nat) :
    Option RateRecord → List Int → Option RateRecord × List Bool
  | rec, [] => (rec, [])
  | rec, t :: ts =>
    let step := rateLimitStep windowMs maxRequests t rec
    let rest := rateLimitRun windowMs maxRequests step.1 ts
    (rest.1, step.2 :: rest.2)

/-! ### IP anonymization (`src/server/storage.ts`, `anonymizeOldIPs`) -/

/-- `s.substring(0, s.lastIndexOf(c))` on the character list: everything
strictly before the last occurrence of `c`. -/
def beforeLast (c : Char) (cs : List Char) : List Char :=
  ((cs.reverse.dropWhile (fun a => a ≠ c)).tail).reverse

/-- The per-address transformation of `anonymizeOldIPs`
(storage.ts:430-440): an address containing `:` is taken as IPv6 and its
final segment is replaced with `0`; otherwise an address containing `.` is
taken as IPv4 and its final octet is replaced with `0`; any other string is
left unchanged. -/
def anonymizeIp (s : String) : String :=
  if ':' ∈ s.data then
    ⟨beforeLast ':' s.data ++ [':', '0']⟩
  else if '.' ∈ s.data then
    ⟨beforeLast '.' s.data ++ ['.', '0']⟩
  else s

/-! ### Ingress pipeline (`src/server/routes.ts`, `POST /api/waf/ingress`)
and the dashboard blocked count (`src/server/storage.ts`,
`getDashboardStats`). -/

/-- The slice of a tenant row the ingress pipeline reads. -/
structure Tenant where
  isActive : Bool
  scrubCookies : Option Bool
  scrubAuthHeaders : Option Bool
deriving Repr

/-- The slice of a policy row the ingress pipeline reads; the threshold
columns are nullable in the schema, hence `Option`. -/
structure Policy where
  blockThreshold : Option Int
  challengeThreshold : Option Int
  monitorThreshold : Option Int
deriving Repr

/-- The external-collaborator state the ingress handler consults: the
tenant lookup, its policy lookup, and the two rule loads
(routes.ts:631-646). -/
structure IngressEnv where
  tenant : Option Tenant
  policy : Option Policy
  tenantRules : List WafRule
  globalRules : List WafRule

/-- The persisted request row, restricted to the columns the analysis
outcome determines (`storage.createRequest` call, routes.ts:664-678). -/
structure StoredRequest where
  tenantId : String
  timestamp : Int
  method : String
  path : String
  responseCode : Int
  actionTaken : String
  wafHits : List RuleMatch
deriving Repr, DecidableEq

/-- The persisted analysis row (`storage.createAnalysis` call,
routes.ts:681-689), restricted to the decision columns. -/
structure StoredAnalysis where
  matchedRules : List RuleMatch
  totalScore : Int
  suggestedAction : String
  finalAction : String
deriving Repr, DecidableEq

/-- The compact JSON body returned to the upstream caller
(routes.ts:713-720). -/
structure IngressResponse where
  action : Action
  score : Int
  matchCount : Nat
deriving Repr, DecidableEq

/-- The observable outcome of one ingress call.  Side effects are encoded
by the constructor: only `success` creates the request and analysis rows
and broadcasts the stored request to subscribers; within `success`, an
alert row is created and broadcast exactly when `alertRaised` is true.
`badRequest`, `tenantNotFound` and `wafError` answer 400, 404 and 500
respectively, with no row created and nothing broadcast. -/
inductive IngressOutcome where
  | badRequest : IngressOutcome
  | tenantNotFound : IngressOutcome
  | wafError : IngressOutcome
  | success : StoredRequest → StoredAnalysis → Bool → IngressResponse → IngressOutcome
deriving Repr, DecidableEq

/-- The string stored in the action columns: `analysis.action === "block" ?
"deny" : analysis.action` (routes.ts:672, 685, 686). -/
def storedAction : Action → String
  | .block => "deny"
  | .challenge => "challenge"
  | .allow => "allow"

/-- The HTTP status stored for the request row (routes.ts:653-655). -/
def responseCodeFor : Action → Int
  | .block => 403
  | .challenge => 429
  | .allow => 200

/-- The `POST /api/waf/ingress` handler (routes.ts:623-725) for a single
call, with the storage reads supplied by `env`, the clock by `now` and the
regex engine by `compile`.  JavaScript falsiness of the two body fields is
`none` (absent) or, for the tenant id, the empty string. -/
def ingress (env : IngressEnv) (tenantId : Option String)
    (incoming : Option RequestData) (compile : RegexCompiler) (now : Int) :
    IngressOutcome :=
  match tenantId, incoming with
  | some tid, some req =>
    if tid = "" then .badRequest
    else
      match env.tenant with
      | none => .tenantNotFound
      | some tenant =>
        if tenant.isActive then
          let th : Thresholds :=
            { blockThreshold := (env.policy.bind Policy.blockThreshold).getD 70,
              challengeThreshold := (env.policy.bind Policy.challengeThreshold).getD 50,
              monitorThreshold := (env.policy.bind Policy.monitorThreshold).getD 30 }
          let custom := setCustomRules (env.globalRules ++ env.tenantRules)
          match analyzeRequest compile custom req th with
          | .error _ => .wafError
          | .ok analysis =>
            let stored : StoredRequest :=
              { tenantId := tid,
                timestamp := now,
                method := req.method,
                path := req.path,
                responseCode := responseCodeFor analysis.action,
                actionTaken := storedAction analysis.action,
                wafHits := analysis.matchList }
            let arec : StoredAnalysis :=
              { matchedRules := analysis.matchList,
                totalScore := analysis.score,
                suggestedAction := storedAction analysis.action,
                finalAction := storedAction analysis.action }
            .success stored arec (analysis.score ≥ 70)
              ⟨analysis.action, analysis.score, analysis.matchList.length⟩
        else .tenantNotFound
  | _, _ => .badRequest

/-- The filter `getDashboardStats` counts as "blocked" (storage.ts:455-457):
rows of the last 24 hours whose `actionTaken` is the literal `deny`. -/
def blockedRow (now : Int) (r : StoredRequest) : Bool :=
  (now - 24 * 60 * 60 * 1000 ≤ r.timestamp) && r.actionTaken = "deny"

/-- The dashboard's blocked-request count over the stored rows. -/
def blockedCount (now : Int) (rows : List StoredRequest) : Nat :=
  (rows.filter (blockedRow now)).length

/-! ### The decision chain as a function of the clamped score -/

/-- The action selected by the threshold chain (engine.ts:96-107). -/
def decision (th : Thresholds) (s : Int) : Action :=
  if s ≥ th.blockThreshold then .block
  else if s ≥ th.challengeThreshold then .challenge
  else .allow

/-- The reason string selected by the threshold chain (engine.ts:96-107). -/
def reasonFor (th : Thresholds) (s : Int) : String :=
  if s ≥ th.blockThreshold then
    "Threat score " ++ toString s ++ " exceeded block threshold "
      ++ toString th.blockThreshold
  else if s ≥ th.challengeThreshold then
    "Threat score " ++ toString s ++ " exceeded challenge threshold "
      ++ toString th.challengeThreshold
  else if s ≥ th.monitorThreshold then
    "Threat score " ++ toString s ++ " requires monitoring"
  else "Request passed all checks"

/-- Restrictiveness order of the three actions. -/
def actionRank : Action → Nat
  | .allow => 0
  | .challenge => 1
  | .block => 2

/-! ### Characterization of the rule loop -/

theorem evalRules_eq (compile : RegexCompiler) (req : RequestData) :
    ∀ rs : List WafRule, rulesCompile compile rs = true →
      evalRules compile req rs =
        .ok ((rs.filter (ruleFires compile req)).map (matchOf req),
          ((rs.filter (ruleFires compile req)).map
            (fun r => severityScore r.severity)).sum) := by
  intro rs
  induction rs with
  | nil => intro _; simp [evalRules]
  | cons r rs ih =>
    intro h
    rw [rulesCompile, List.all_cons, Bool.and_eq_true] at h
    obtain ⟨hr, hrs⟩ := h
    have ih' := ih hrs
    by_cases he : r.enabled
    · cases hc : compile r.pattern with
      | none => simp [he, hc, Option.isSome] at hr
      | some test =>
        by_cases ht : test (lookupContent req r.targetField) = true
        · have hf : ruleFires compile req r = true := by
            simp [ruleFires, he, hc, ht]
          simp [evalRules, he, hc, ht, ih', hf, matchOf, List.filter_cons]
        · have hf : ruleFires compile req r = false := by
            simp [ruleFires, hc]
            intro _
            simpa using ht
          simp [evalRules, he, hc, ht, ih', hf, List.filter_cons]
    · have hf : ruleFires compile req r = false := by
        simp [ruleFires, he]
      simp [evalRules, he, ih', hf, List.filter_cons]

theorem evalRules_ok_compiles (compile : RegexCompiler) (req : RequestData) :
    ∀ (rs : List WafRule) (out : List RuleMatch × Int),
      evalRules compile req rs = .ok out → rulesCompile compile rs = true := by
  intro rs
  induction rs with
  | nil => intro out _; simp [rulesCompile]
  | cons r rs ih =>
    intro out h
    rw [rulesCompile, List.all_cons, Bool.and_eq_true]
    by_cases he : r.enabled
    · cases hc : compile r.pattern with
      | none => simp [evalRules, he, hc] at h
      | some test =>
        refine ⟨by simp [he, hc], ?_⟩
        by_cases ht : test (lookupContent req r.targetField) = true
        · simp only [evalRules, he, if_true, hc, ht, if_pos] at h
          cases hrec : evalRules compile req rs with
          | error e => rw [hrec] at h; simp at h
          | ok o => exact ih o hrec
        · simp only [evalRules, he, if_true, hc, eq_self_iff_true] at h
          rw [if_neg ht] at h
          exact ih out h
    · simp only [evalRules, he, if_false, Bool.false_eq_true] at h
      refine ⟨by simp [he], ih out h⟩

/-- The rules the engine evaluates for one analysis call. -/
def allRules (customRules : List WafRule) : List WafRule :=
  defaultRules ++ customRules

/-- The fired sublist for one analysis call. -/
def firedRules (compile : RegexCompiler) (req : RequestData)
    (customRules : List WafRule) : List WafRule :=
  (allRules customRules).filter (ruleFires compile req)

/-- The unclamped severity-point sum over the fired rules. -/
def rawScore (compile : RegexCompiler) (req : RequestData)
    (customRules : List WafRule) : Int :=
  ((firedRules compile req customRules).map (fun r => severityScore r.severity)).sum

theorem analyzeRequest_eq (compile : RegexCompiler) (customRules : List WafRule)
    (req : RequestData) (th : Thresholds)
    (h : rulesCompile compile (allRules customRules) = true) :
    analyzeRequest compile customRules req th =
      .ok ⟨decision th (min 100 (rawScore compile req customRules)),
        min 100 (rawScore compile req customRules),
        (firedRules compile req customRules).map (matchOf req),
        reasonFor th (min 100 (rawScore compile req customRules))⟩ := by
  rw [analyzeRequest, evalRules_eq compile req (defaultRules ++ customRules) h]
  have hf : (defaultRules ++ customRules).filter (ruleFires compile req)
      = firedRules compile req customRules := rfl
  rw [hf]
  have hr : ((firedRules compile req customRules).map
      (fun r => severityScore r.severity)).sum = rawScore compile req customRules := rfl
  rw [hr]
  dsimp only
  rw [decision, reasonFor]
  split_ifs <;> rfl

theorem analyzeRequest_ok_compiles (compile : RegexCompiler)
    (customRules : List WafRule) (req : RequestData) (th : Thresholds)
    (res : AnalysisResult) (h : analyzeRequest compile customRules req th = .ok res) :
    rulesCompile compile (allRules customRules) = true := by
  rw [analyzeRequest] at h
  cases hrec : evalRules compile req (defaultRules ++ customRules) with
  | error e => rw [hrec] at h; simp at h
  | ok o => exact evalRules_ok_compiles compile req _ o hrec

theorem analyzeRequest_ok_shape (compile : RegexCompiler)
    (customRules : List WafRule) (req : RequestData) (th : Thresholds)
    (res : AnalysisResult) (h : analyzeRequest compile customRules req th = .ok res) :
    res = ⟨decision th (min 100 (rawScore compile req customRules)),
      min 100 (rawScore compile req customRules),
      (firedRules compile req customRules).map (matchOf req),
      reasonFor th (min 100 (rawScore compile req customRules))⟩ := by
  have hc := analyzeRequest_ok_compiles compile customRules req th res h
  rw [analyzeRequest_eq compile customRules req th hc] at h
  exact (Except.ok.injEq _ _).mp h.symm

theorem severityScore_nonneg (sev : String) : 0 ≤ severityScore sev := by
  rw [severityScore]
  split_ifs <;> norm_num

theorem rawScore_nonneg (compile : RegexCompiler) (req : RequestData)
    (customRules : List WafRule) : 0 ≤ rawScore compile req customRules := by
  refine List.sum_nonneg ?_
  intro x hx
  obtain ⟨r, _, hr⟩ := List.mem_map.mp hx
  exact hr ▸ severityScore_nonneg r.severity

theorem evalRules_insert_disabled (compile : RegexCompiler) (req : RequestData)
    (r : WafRule) (hr : r.enabled = false) :
    ∀ xs ys : List WafRule,
      evalRules compile req (xs ++ r :: ys) = evalRules compile req (xs ++ ys) := by
  intro xs
  induction xs with
  | nil => intro ys; simp [evalRules, hr]
  | cons x xs ih =>
    intro ys
    by_cases he : x.enabled
    · cases hc : compile x.pattern with
      | none => simp [evalRules, he, hc]
      | some test =>
        by_cases ht : test (lookupContent req x.targetField) = true
        · simp [evalRules, he, hc, ht, ih]
        · simp [evalRules, he, hc, ht, ih]
    · simp [evalRules, he, ih]

theorem matchList_from_enabled (compile : RegexCompiler)
    (customRules : List WafRule) (req : RequestData) (th : Thresholds)
    (res : AnalysisResult) (h : analyzeRequest compile customRules req th = .ok res) :
    ∀ m ∈ res.matchList, ∃ ru, ru ∈ allRules customRules ∧
      ru.enabled = true ∧ m = matchOf req ru := by
  rw [analyzeRequest_ok_shape compile customRules req th res h]
  intro m hm
  obtain ⟨ru, hru, hmo⟩ := List.mem_map.mp hm
  obtain ⟨hmem, hfire⟩ := List.mem_filter.mp hru
  refine ⟨ru, hmem, ?_, hmo.symm⟩
  rw [ruleFires, Bool.and_eq_true] at hfire
  exact hfire.1

/-! ### Concrete fixtures used by witnesses and counterexamples -/

/-- A benign GET request with no query, body or headers. -/
def req0 : RequestData := ⟨"GET", "/home", none, none, none⟩

/-- The default thresholds (block 70, challenge 50, monitor 30). -/
def th0 : Thresholds := ⟨70, 50, 30⟩

/-- A regex oracle under which no pattern ever matches. -/
def noMatchCompiler : RegexCompiler := fun _ => some (fun _ => false)

/-- A regex oracle under which every pattern matches everything. -/
def allMatchCompiler : RegexCompiler := fun _ => some (fun _ => true)

/-- A regex oracle under which exactly the pattern `wpat` matches (and it
matches any content). -/
def wCompiler : RegexCompiler :=
  fun q => if q = "wpat" then some (fun _ => true) else some (fun _ => false)

/-- A custom rule of medium severity targeting the path. -/
def wRule : WafRule := ⟨"w-rule", "wpat", "path", "medium", "custom", true⟩

/-- A custom low-severity rule targeting the path. -/
def wRuleLow : WafRule := ⟨"w-low", "wpat", "path", "low", "custom", true⟩

/-- The same rule as `wRule` but with critical severity and disabled. -/
def wRuleDisabled : WafRule := ⟨"w-dis", "wpat", "path", "critical", "custom", false⟩

/-- Thresholds with a low monitor boundary, to exercise the monitoring
annotation. -/
def thMon : Thresholds := ⟨70, 50, 20⟩

/-- The match list produced when all four baseline patterns fire on
`req0`. -/
def wHits : List RuleMatch :=
  [ ⟨"sql-injection", "query", "{}", "high"⟩,
    ⟨"xss-basic", "body", "{}", "high"⟩,
    ⟨"path-traversal", "path", "/home", "medium"⟩,
    ⟨"cmd-injection", "query", "{}", "high"⟩ ]

/-! ### C1 — aggregate score is the clamped severity sum -/

/-- C1: for every request and rule set, the score returned by
`analyzeRequest` is exactly the sum, over all fired rules, of the
severity-derived point values (critical=100, high=75, medium=50,
otherwise 25 — see `severityScore`, which reads only the severity, so a
rule's declared score field cannot contribute), clamped by
`min 100`, and the result always lies in the closed interval [0, 100]. -/
theorem score_is_clamped_severity_sum (compile : RegexCompiler)
    (customRules : List WafRule) (req : RequestData) (th : Thresholds)
    (res : AnalysisResult)
    (h : analyzeRequest compile customRules req th = .ok res) :
    res.score = min 100
        (((allRules customRules).filter (ruleFires compile req)).map
          (fun r => severityScore r.severity)).sum ∧
    0 ≤ res.score ∧ res.score ≤ 100 := by
  rw [analyzeRequest_ok_shape compile customRules req th res h]
  refine ⟨rfl, ?_, min_le_left _ _⟩
  exact le_min (by norm_num) (rawScore_nonneg compile req customRules)

/-- The analysis of `req0` against `wRule` under `wCompiler`: only the
custom medium rule fires, scoring 50, which crosses the challenge
threshold. -/
def wRes : AnalysisResult :=
  ⟨.challenge, 50, [⟨"w-rule", "path", "/home", "medium"⟩],
    "Threat score 50 exceeded challenge threshold 50"⟩

set_option maxRecDepth 8192 in
theorem score_is_clamped_severity_sum_witness :
    wRes.score = min 100
        (((allRules [wRule]).filter (ruleFires wCompiler req0)).map
          (fun r => severityScore r.severity)).sum ∧
    0 ≤ wRes.score ∧ wRes.score ≤ 100 :=
  score_is_clamped_severity_sum wCompiler [wRule] req0 th0 wRes (by rfl)

/-! ### C2 — the threshold chain decides in fixed priority order -/

/-- C2: for every analysis that completes, the decision follows the fixed
priority order: score ≥ block threshold gives `block`; otherwise score ≥
challenge threshold gives `challenge`; otherwise score ≥ monitor threshold
leaves the action `allow` but annotates the result with the monitoring
reason string; otherwise the action is `allow` with the no-findings
reason. -/
theorem decision_priority_order (compile : RegexCompiler)
    (customRules : List WafRule) (req : RequestData) (th : Thresholds)
    (res : AnalysisResult)
    (h : analyzeRequest compile customRules req th = .ok res) :
    (th.blockThreshold ≤ res.score → res.action = .block) ∧
    (res.score < th.blockThreshold → th.challengeThreshold ≤ res.score →
      res.action = .challenge) ∧
    (res.score < th.blockThreshold → res.score < th.challengeThreshold →
      th.monitorThreshold ≤ res.score →
      res.action = .allow ∧
      res.reason = "Threat score " ++ toString res.score ++ " requires monitoring") ∧
    (res.score < th.blockThreshold → res.score < th.challengeThreshold →
      res.score < th.monitorThreshold →
      res.action = .allow ∧ res.reason = "Request passed all checks") := by
  rw [analyzeRequest_ok_shape compile customRules req th res h]
  dsimp only
  unfold decision reasonFor
  split_ifs with h1 h2 h3 <;>
    refine ⟨?_, ?_, ?_, ?_⟩ <;> intros <;>
      first
        | rfl
        | exact ⟨rfl, rfl⟩
        | (exfalso; omega)

/-- The analysis of `req0` against the low-severity rule under low monitor
thresholds: score 25 stays `allow` but is annotated for monitoring. -/
def wResMon : AnalysisResult :=
  ⟨.allow, 25, [⟨"w-low", "path", "/home", "low"⟩],
    "Threat score 25 requires monitoring"⟩

set_option maxRecDepth 8192 in
theorem decision_priority_order_witness :
    wResMon.action = .allow ∧
    wResMon.reason = "Threat score " ++ toString wResMon.score ++ " requires monitoring" :=
  (decision_priority_order wCompiler [wRuleLow] req0 thMon wResMon
    (by rfl)).2.2.1 (by decide) (by decide) (by decide)

/-! ### C3 — the decision is monotone in the score -/

/-- C3: with thresholds ordered block ≥ challenge ≥ monitor, the decision
`analyzeRequest` computes is a deterministic, monotone function of the
clamped score: whenever one completed analysis scores no higher than
another under the same thresholds, its action is no more restrictive
(ordering allow < challenge < block). -/
theorem decision_monotone_in_score (th : Thresholds)
    (hbc : th.challengeThreshold ≤ th.blockThreshold)
    (hcm : th.monitorThreshold ≤ th.challengeThreshold)
    (compileA compileB : RegexCompiler) (rulesA rulesB : List WafRule)
    (reqA reqB : RequestData) (resA resB : AnalysisResult)
    (hA : analyzeRequest compileA rulesA reqA th = .ok resA)
    (hB : analyzeRequest compileB rulesB reqB th = .ok resB)
    (hs : resA.score ≤ resB.score) :
    actionRank resA.action ≤ actionRank resB.action := by
  have eA : resA.action = decision th resA.score := by
    rw [analyzeRequest_ok_shape compileA rulesA reqA th resA hA]
  have eB : resB.action = decision th resB.score := by
    rw [analyzeRequest_ok_shape compileB rulesB reqB th resB hB]
  rw [eA, eB]
  unfold decision
  split_ifs <;> simp [actionRank] <;> omega

/-- The saturated analysis of `req0` when every pattern matches: all four
baseline patterns fire and the clamped score 100 crosses the block
threshold. -/
def wResBlock : AnalysisResult :=
  ⟨.block, 100, wHits, "Threat score 100 exceeded block threshold 70"⟩

/-- The analysis of `req0` when nothing matches. -/
def wResAllow : AnalysisResult := ⟨.allow, 0, [], "Request passed all checks"⟩

set_option maxRecDepth 8192 in
theorem decision_monotone_in_score_witness :
    actionRank wResAllow.action ≤ actionRank wResBlock.action :=
  decision_monotone_in_score th0 (by decide) (by decide)
    noMatchCompiler allMatchCompiler [] [] req0 req0 wResAllow wResBlock
    (by rfl) (by rfl) (by decide)

/-! ### C4 — a disabled rule never participates -/

/-- C4: inserting a disabled rule anywhere in the custom rule list changes
neither the outcome of `analyzeRequest` (so it contributes no score) nor
the match list — and every match in any completed analysis comes from an
enabled rule.  This holds even when the disabled rule's pattern would
match its target field's content. -/
theorem disabled_rule_never_matches (compile : RegexCompiler)
    (pre post : List WafRule) (r : WafRule) (req : RequestData)
    (th : Thresholds) (hr : r.enabled = false) :
    analyzeRequest compile (pre ++ r :: post) req th
      = analyzeRequest compile (pre ++ post) req th ∧
    ∀ res, analyzeRequest compile (pre ++ r :: post) req th = .ok res →
      ∀ m ∈ res.matchList, ∃ ru, ru ∈ allRules (pre ++ r :: post) ∧
        ru.enabled = true ∧ m = matchOf req ru := by
  constructor
  · have key : evalRules compile req (defaultRules ++ (pre ++ r :: post))
        = evalRules compile req (defaultRules ++ (pre ++ post)) := by
      rw [← List.append_assoc, ← List.append_assoc]
      exact evalRules_insert_disabled compile req r hr (defaultRules ++ pre) post
    rw [analyzeRequest, analyzeRequest, key]
  · intro res h
    exact matchList_from_enabled compile (pre ++ r :: post) req th res h

set_option maxRecDepth 8192 in
theorem disabled_rule_never_matches_witness :
    analyzeRequest wCompiler ([] ++ wRuleDisabled :: []) req0 th0
      = analyzeRequest wCompiler ([] ++ []) req0 th0 :=
  (disabled_rule_never_matches wCompiler [] [] wRuleDisabled req0 th0 rfl).1

/-! ### C6 — a malformed pattern aborts the whole analysis -/

/-- A regex oracle under which the pattern `[` (an unclosed character
class, which `new RegExp` rejects) fails to compile, while every other
pattern compiles to a non-matching test. -/
def badPatternCompiler : RegexCompiler :=
  fun p => if p = "[" then none else some (fun _ => false)

/-- An enabled custom rule carrying the malformed pattern `[`. -/
def badRule : WafRule := ⟨"bad-rule", "[", "path", "low", "custom", true⟩

/-- C6 (counter-evidence): the loop of `analyzeRequest` calls
`new RegExp(rule.pattern, 'i')` with no per-rule exception handling
(engine.ts:75), so a rule set containing one malformed pattern makes the
whole analysis throw — modelled as `Except.error` — instead of skipping
that rule; the route's catch-all then answers 500, a caller-visible
error.  This contradicts the specified per-rule isolation. -/
theorem malformed_pattern_aborts_analysis :
    analyzeRequest badPatternCompiler [badRule] req0 th0 = .error () := by rfl

/-! ### C7 — the whole-request content key -/

/-- An enabled custom rule whose target field is the literal
`full-request`. -/
def fullReqRule : WafRule :=
  ⟨"full-rule", "anything", "full-request", "high", "custom", true⟩

/-- An enabled custom rule whose target field is `request`, the key the
engine's content map actually defines for the whole request. -/
def reqRule : WafRule := ⟨"req-rule", "anything", "request", "low", "custom", true⟩

/-- A regex oracle under which exactly the pattern `anything` compiles to
a test accepting every non-empty string (so it accepts any serialized
request), and every other pattern compiles to a non-matching test. -/
def nonEmptyCompiler : RegexCompiler :=
  fun p => if p = "anything" then some (fun c => c != "") else some (fun _ => false)

/-- C7 (counterexample): the content map of `analyzeRequest` has keys
`path`, `query`, `body`, `headers` and `request` but none named
`full-request` (engine.ts:63-69), and `searchableContent[targetField] ||
''` (engine.ts:74) silently falls back to the empty string.  So an enabled
rule targeting `full-request`, whose compiled pattern accepts every
non-empty string — in particular the canonical serialization of the whole
request — produces no match at all: it was tested against `""`, not
against the serialized request. -/
theorem fullrequest_field_resolves_empty :
    lookupContent req0 "full-request" = "" ∧
    req0.serialize ≠ "" ∧
    nonEmptyCompiler fullReqRule.pattern = some (fun c => c != "") ∧
    (req0.serialize != "") = true ∧
    analyzeRequest nonEmptyCompiler [fullReqRule] req0 th0
      = .ok ⟨.allow, 0, [], "Request passed all checks"⟩ := by
  exact ⟨rfl, by decide, rfl, by decide, by rfl⟩

/-- C7 (amended): the engine's whole-request content is keyed `request`,
not `full-request`: for every request, `full-request` resolves to the
empty string while `request` resolves to the JSON serialization of the
entire request; and in every completed analysis, an enabled rule targeting
`request` whose compiled pattern accepts that serialization contributes
the corresponding match on it. -/
theorem request_field_serializes_whole_request (compile : RegexCompiler)
    (pre post : List WafRule) (r : WafRule) (test : String → Bool)
    (req : RequestData) (th : Thresholds) (res : AnalysisResult)
    (hen : r.enabled = true) (htf : r.targetField = "request")
    (hc : compile r.pattern = some test)
    (ht : test req.serialize = true)
    (h : analyzeRequest compile (pre ++ r :: post) req th = .ok res) :
    lookupContent req "full-request" = "" ∧
    lookupContent req "request" = req.serialize ∧
    (⟨r.id, "request", req.serialize.take 100, r.severity⟩ : RuleMatch)
      ∈ res.matchList := by
  refine ⟨rfl, rfl, ?_⟩
  rw [analyzeRequest_ok_shape compile (pre ++ r :: post) req th res h]
  have hmem : r ∈ allRules (pre ++ r :: post) := by
    unfold allRules
    simp
  have hfire : ruleFires compile req r = true := by
    rw [ruleFires, hen, hc, htf]
    simpa using ht
  have hmo : matchOf req r
      = ⟨r.id, "request", req.serialize.take 100, r.severity⟩ := by
    rw [matchOf, htf]
    rfl
  rw [← hmo]
  exact List.mem_map_of_mem _ (List.mem_filter.mpr ⟨hmem, hfire⟩)

/-- The analysis of `req0` with the `request`-targeting rule: the rule
fires on the serialized request, scoring 25. -/
def wResReq : AnalysisResult :=
  ⟨.allow, 25,
    [⟨"req-rule", "request", req0.serialize.take 100, "low"⟩],
    "Request passed all checks"⟩

set_option maxRecDepth 8192 in
theorem request_field_serializes_whole_request_witness :
    lookupContent req0 "full-request" = "" ∧
    lookupContent req0 "request" = req0.serialize ∧
    (⟨"req-rule", "request", req0.serialize.take 100, "low"⟩ : RuleMatch)
      ∈ wResReq.matchList :=
  request_field_serializes_whole_request nonEmptyCompiler [] [] reqRule
    (fun c => c != "") req0 th0 wResReq rfl rfl rfl (by decide) (by rfl)

/-! ### C5 — unknown or inactive tenant halts the ingress call -/

/-- C5: when the tenant id does not resolve, or resolves to a tenant whose
`isActive` flag is false, the ingress call answers with the
tenant-not-found outcome and performs no further processing: by the
encoding of `IngressOutcome`, no request or analysis row is created,
nothing is broadcast, and no alert is raised. -/
theorem inactive_tenant_rejected (env : IngressEnv) (tid : String)
    (req : RequestData) (compile : RegexCompiler) (now : Int)
    (htid : tid ≠ "")
    (hten : env.tenant = none ∨ ∃ t, env.tenant = some t ∧ t.isActive = false) :
    ingress env (some tid) (some req) compile now = .tenantNotFound := by
  rw [ingress]
  rw [if_neg htid]
  rcases hten with h | ⟨t, h, hact⟩
  · rw [h]
  · rw [h]
    have : ¬ (t.isActive = true) := by simp [hact]
    simp only [this, if_false, Bool.false_eq_true]

/-- An environment whose tenant lookup yields an inactive tenant. -/
def envInactive : IngressEnv := ⟨some ⟨false, none, none⟩, none, [], []⟩

theorem inactive_tenant_rejected_witness :
    ingress envInactive (some "t1") (some req0) noMatchCompiler 0
      = .tenantNotFound :=
  inactive_tenant_rejected envInactive "t1" req0 noMatchCompiler 0
    (by decide) (Or.inr ⟨⟨false, none, none⟩, rfl, rfl⟩)

/-! ### C10 — block decisions are persisted as `deny` -/

/-- C10: every successfully ingested request is persisted with
`actionTaken`, `suggestedAction` and `finalAction` equal to
`storedAction` of the decided action — which maps `block` to the literal
`deny`, never storing the literal `block` — and with `responseCode` 403
for a block decision, 429 for challenge, 200 for allow; consequently the
stored record of a block decision is exactly what the dashboard's
blocked-request filter counts. -/
theorem block_persisted_as_deny (env : IngressEnv) (tid : String)
    (req : RequestData) (compile : RegexCompiler) (now : Int)
    (stored : StoredRequest) (arec : StoredAnalysis) (alertRaised : Bool)
    (resp : IngressResponse)
    (h : ingress env (some tid) (some req) compile now
      = .success stored arec alertRaised resp) :
    stored.actionTaken = storedAction resp.action ∧
    arec.suggestedAction = storedAction resp.action ∧
    arec.finalAction = storedAction resp.action ∧
    stored.responseCode = responseCodeFor resp.action ∧
    (resp.action = .block → stored.actionTaken = "deny" ∧ stored.responseCode = 403) ∧
    (resp.action = .challenge → stored.responseCode = 429) ∧
    (resp.action = .allow → stored.responseCode = 200) ∧
    stored.actionTaken ≠ "block" ∧
    (blockedRow now stored = true ↔ resp.action = .block) := by
  rw [ingress] at h
  by_cases htid : tid = ""
  · rw [if_pos htid] at h
    exact absurd h (by simp)
  · rw [if_neg htid] at h
    cases hten : env.tenant with
    | none => rw [hten] at h; exact absurd h (by simp)
    | some t =>
      rw [hten] at h
      dsimp only at h
      by_cases hact : t.isActive = true
      · rw [if_pos hact] at h
        cases han : analyzeRequest compile
            (setCustomRules (env.globalRules ++ env.tenantRules)) req
            { blockThreshold := (env.policy.bind Policy.blockThreshold).getD 70,
              challengeThreshold := (env.policy.bind Policy.challengeThreshold).getD 50,
              monitorThreshold := (env.policy.bind Policy.monitorThreshold).getD 30 } with
        | error e => rw [han] at h; exact absurd h (by simp)
        | ok analysis =>
          rw [han] at h
          dsimp only at h
          have hs := (IngressOutcome.success.injEq _ _ _ _ _ _ _ _).mp h
          obtain ⟨h1, h2, _, h4⟩ := hs
          have htime : now - 24 * 60 * 60 * 1000 ≤ now := by omega
          subst h1 h2 h4
          cases hA : analysis.action <;>
            simp [storedAction, responseCodeFor, blockedRow, hA, htime]
      · rw [if_neg hact] at h
        exact absurd h (by simp)

/-- An environment whose tenant lookup yields an active tenant, with no
policy row and no stored rules. -/
def envActive : IngressEnv := ⟨some ⟨true, none, none⟩, none, [], []⟩

/-- The persisted request row for the saturated block analysis of `req0`. -/
def storedBlock : StoredRequest := ⟨"t1", 0, "GET", "/home", 403, "deny", wHits⟩

/-- The persisted analysis row for the saturated block analysis of `req0`. -/
def arecBlock : StoredAnalysis := ⟨wHits, 100, "deny", "deny"⟩

set_option maxRecDepth 8192 in
theorem block_persisted_as_deny_witness :
    storedBlock.actionTaken = "deny" ∧ storedBlock.responseCode = 403 :=
  (block_persisted_as_deny envActive "t1" req0 allMatchCompiler 0
    storedBlock arecBlock true ⟨.block, 100, 4⟩
    (by rfl)).2.2.2.2.1 rfl

/-! ### C8 — rate limiting with max 5 per 60 s window -/

/-- C8: with `windowMs = 60000` and `maxRequests = 5`, starting from no
entry for the key: six calls whose last five arrive before the window
reset time are answered allow five times and then denied, and the denied
sixth call leaves the entry untouched (count still 5, reset time still
`t0 + 60000`); any later call at or after the reset time is allowed and
replaces the entry with count 1 and a fresh window. -/
theorem rate_limit_window (t0 t1 t2 t3 t4 t5 : Int)
    (h1 : t1 < t0 + 60000) (h2 : t2 < t0 + 60000) (h3 : t3 < t0 + 60000)
    (h4 : t4 < t0 + 60000) (h5 : t5 < t0 + 60000) :
    rateLimitRun 60000 5 none [t0, t1, t2, t3, t4, t5]
      = (some ⟨5, t0 + 60000⟩, [true, true, true, true, true, false]) ∧
    ∀ t, t0 + 60000 ≤ t →
      rateLimitStep 60000 5 t (some ⟨5, t0 + 60000⟩)
        = (some ⟨1, t + 60000⟩, true) := by
  constructor
  · have s0 : rateLimitStep 60000 5 t0 none
        = (some ⟨1, t0 + 60000⟩, true) := rfl
    have s1 : rateLimitStep 60000 5 t1 (some ⟨1, t0 + 60000⟩)
        = (some ⟨2, t0 + 60000⟩, true) := by simp [rateLimitStep, h1]
    have s2 : rateLimitStep 60000 5 t2 (some ⟨2, t0 + 60000⟩)
        = (some ⟨3, t0 + 60000⟩, true) := by simp [rateLimitStep, h2]
    have s3 : rateLimitStep 60000 5 t3 (some ⟨3, t0 + 60000⟩)
        = (some ⟨4, t0 + 60000⟩, true) := by simp [rateLimitStep, h3]
    have s4 : rateLimitStep 60000 5 t4 (some ⟨4, t0 + 60000⟩)
        = (some ⟨5, t0 + 60000⟩, true) := by simp [rateLimitStep, h4]
    have s5 : rateLimitStep 60000 5 t5 (some ⟨5, t0 + 60000⟩)
        = (some ⟨5, t0 + 60000⟩, false) := by simp [rateLimitStep, h5]
    simp [rateLimitRun, s0, s1, s2, s3, s4, s5]
  · intro t ht
    rw [rateLimitStep]
    rw [if_neg (show ¬ ((⟨5, t0 + 60000⟩ : RateRecord).resetTime > t) by
      simp only [RateRecord.resetTime]
      omega)]

theorem rate_limit_window_witness :
    rateLimitRun 60000 5 none [0, 1, 2, 3, 4, 5]
      = (some ⟨5, 0 + 60000⟩, [true, true, true, true, true, false]) :=
  (rate_limit_window 0 1 2 3 4 5 (by decide) (by decide) (by decide)
    (by decide) (by decide)).1

/-! ### C9 — IP anonymization is idempotent -/

theorem beforeLast_append (c : Char) (hc : ¬ ('0' : Char) = c)
    (xs : List Char) : beforeLast c (xs ++ [c, '0']) = xs := by
  rw [beforeLast, List.reverse_append]
  have hr : ([c, '0'] : List Char).reverse ++ xs.reverse
      = '0' :: c :: xs.reverse := rfl
  rw [hr, List.dropWhile_cons, List.dropWhile_cons]
  simp [hc]

theorem mem_of_mem_beforeLast (c a : Char) (cs : List Char)
    (h : a ∈ beforeLast c cs) : a ∈ cs := by
  rw [beforeLast, List.mem_reverse] at h
  exact List.mem_reverse.mp
    ((List.dropWhile_sublist _).subset (List.tail_subset _ h))

theorem anonymizeIp_colon (s : String) (h : ':' ∈ s.data) :
    anonymizeIp s = ⟨beforeLast ':' s.data ++ [':', '0']⟩ := by
  rw [anonymizeIp, if_pos h]

theorem anonymizeIp_dot (s : String) (h1 : ¬ ':' ∈ s.data)
    (h2 : '.' ∈ s.data) :
    anonymizeIp s = ⟨beforeLast '.' s.data ++ ['.', '0']⟩ := by
  rw [anonymizeIp, if_neg h1, if_pos h2]

theorem anonymizeIp_other (s : String) (h1 : ¬ ':' ∈ s.data)
    (h2 : ¬ '.' ∈ s.data) : anonymizeIp s = s := by
  rw [anonymizeIp, if_neg h1, if_neg h2]

/-- C9: the per-address transformation of `anonymizeOldIPs` is idempotent:
truncating an already-truncated address yields the same address, for every
stored client IP string. -/
theorem anonymizeIp_idempotent (s : String) :
    anonymizeIp (anonymizeIp s) = anonymizeIp s := by
  by_cases hcol : ':' ∈ s.data
  · rw [anonymizeIp_colon s hcol]
    have hmem : ':' ∈ (⟨beforeLast ':' s.data ++ [':', '0']⟩ : String).data := by
      show ':' ∈ beforeLast ':' s.data ++ [':', '0']
      simp
    rw [anonymizeIp_colon _ hmem]
    have hd : (⟨beforeLast ':' s.data ++ [':', '0']⟩ : String).data
        = beforeLast ':' s.data ++ [':', '0'] := rfl
    rw [hd, beforeLast_append ':' (by decide) (beforeLast ':' s.data)]
  · by_cases hdot : '.' ∈ s.data
    · rw [anonymizeIp_dot s hcol hdot]
      have hnc : ¬ ':' ∈ (⟨beforeLast '.' s.data ++ ['.', '0']⟩ : String).data := by
        show ¬ ':' ∈ beforeLast '.' s.data ++ ['.', '0']
        intro hmem
        rcases List.mem_append.mp hmem with hx | hx
        · exact hcol (mem_of_mem_beforeLast '.' ':' s.data hx)
        · simp at hx
      have hd2 : '.' ∈ (⟨beforeLast '.' s.data ++ ['.', '0']⟩ : String).data := by
        show '.' ∈ beforeLast '.' s.data ++ ['.', '0']
        simp
      rw [anonymizeIp_dot _ hnc hd2]
      have hd : (⟨beforeLast '.' s.data ++ ['.', '0']⟩ : String).data
          = beforeLast '.' s.data ++ ['.', '0'] := rfl
      rw [hd, beforeLast_append '.' (by decide) (beforeLast '.' s.data)]
    · rw [anonymizeIp_other s hcol hdot, anonymizeIp_other s hcol hdot]

end WafPortal
